import Mathlib

/-!
Shallow embedding of the Host Agent (`src/host_agent/main.go`) of the
multiparty-lb repository.  Pure functions are translated directly; the
effectful parts are made explicit:

* cgroup writes through `bash ./writetofile.sh` are modelled by an oracle
  `Env.writeOK : value → fileName → Bool` (the shell's exit status), and the
  batch handlers return the trace of writes that succeeded, in execution
  order;
* file reads (`cat <path>`, function `getOSFile` in the source) are modelled
  by oracles `Env.readBefore` / `Env.readAfter : path → Option String` for the
  two capture rounds of `getCPUUtilizations`, and the measured elapsed time by
  `Env.elapsedNs`;
* Go maps are modelled by association lists with Go map semantics: insertion
  overwrites an existing key, lookup of a missing key yields the zero value
  `""`; iteration follows the association-list order, which stands for one
  admissible (unspecified) Go map iteration order;
* Go `float64` values produced by `strconv.ParseFloat` are modelled exactly:
  a parsed decimal is kept as an integer numerator over a power-of-ten
  denominator (`GoFloat`), i.e. at its exact rational value.  Hex floats,
  inf/nan forms and the float range error of `ParseFloat` are outside the
  model;
* the `%f`/`%d` formatting of the `utils:` reply is abstracted: the reply is
  modelled as the list of `(podName, percentage)` pairs with the percentage an
  exact rational in place of the `float64`.
-/

namespace HostAgent

/-- Models Go `strings.Split` on a one-character separator, working on
`List Char`: splits at every occurrence of the separator; adjacent separators
produce empty fields, and the result is never the empty list. -/
def splitCharsAux (sep : Char) : List Char → List Char → List (List Char)
  | [], acc => [acc.reverse]
  | c :: cs, acc =>
    if c = sep then acc.reverse :: splitCharsAux sep cs []
    else splitCharsAux sep cs (c :: acc)

/-- Models Go `strings.Split s sep` for a one-character separator `sep`. -/
def splitString (sep : Char) (s : String) : List String :=
  (splitCharsAux sep s.data []).map String.mk

/-- Go map insertion `m[k] = v` on an association list: overwrites the value
of an existing key, otherwise appends the new binding. -/
def mapInsert (m : List (String × String)) (k v : String) : List (String × String) :=
  match m with
  | [] => [(k, v)]
  | (a, b) :: r => if a = k then (k, v) :: r else (a, b) :: mapInsert r k v

/-- Go map lookup `m[k]` on an association list of strings: a missing key
yields the zero value `""` (this is exactly what `podUIDs[podName]` does in
`applyCPUShares` / `applyCPUQuotas` for an unknown pod name). -/
def mapLookup (m : List (String × String)) (k : String) : String :=
  match m with
  | [] => ""
  | (a, b) :: r => if a = k then b else mapLookup r k

/-- Go map lookup on an `int64`-valued association list; a missing key yields
the zero value `0`. -/
def lookupInt (m : List (String × Int)) (k : String) : Int :=
  match m with
  | [] => 0
  | (a, b) :: r => if a = k then b else lookupInt r k

/-- Exact value of a Go `float64` produced by `strconv.ParseFloat` on a
decimal literal: the rational `num / den`, with `den` a positive power of
ten. -/
structure GoFloat where
  num : Int
  den : Nat
deriving DecidableEq

/-- Rational value denoted by a `GoFloat`. -/
def goFloatVal (f : GoFloat) : ℚ := (f.num : ℚ) / (f.den : ℚ)

/-- Models Go's `int64(f)` conversion of a `float64`: truncation toward
zero.  (Conversion of a value outside the `int64` range is
implementation-specific in Go and is not modelled.) -/
def goInt64 (f : GoFloat) : Int := Int.tdiv f.num (Int.ofNat f.den)

/-- Greedy scan of decimal digits: returns the accumulated value, the number
of digits consumed, and the remaining characters. -/
def takeDigits : List Char → Nat → Nat → Nat × Nat × List Char
  | [], v, n => (v, n, [])
  | c :: cs, v, n =>
    if c.isDigit then takeDigits cs (10 * v + (c.toNat - 48)) (n + 1)
    else (v, n, c :: cs)

/-- Models `strconv.ParseFloat(s, 64)` on the decimal syntax
`[+-]? digits [. digits]? ([eE] [+-]? digits)?` (at least one mantissa digit),
returning the exact decimal value.  Returns `none` when the string is not of
this form, as `ParseFloat` returns an error. -/
def parseGoFloatChars (cs0 : List Char) : Option GoFloat :=
  let sgn : Bool × List Char :=
    match cs0 with
    | '+' :: r => (false, r)
    | '-' :: r => (true, r)
    | r => (false, r)
  let ipart := takeDigits sgn.2 0 0
  let fpart : Nat × Nat × List Char :=
    match ipart.2.2 with
    | '.' :: r => takeDigits r 0 0
    | r => (0, 0, r)
  if ipart.2.1 + fpart.2.1 = 0 then none
  else
    let mantNum : Int :=
      (if sgn.1 then -1 else 1) * Int.ofNat (ipart.1 * 10 ^ fpart.2.1 + fpart.1)
    let mantDen : Nat := 10 ^ fpart.2.1
    match fpart.2.2 with
    | [] => some ⟨mantNum, mantDen⟩
    | c :: r =>
      if c = 'e' ∨ c = 'E' then
        let esgn : Bool × List Char :=
          match r with
          | '+' :: r2 => (false, r2)
          | '-' :: r2 => (true, r2)
          | r2 => (false, r2)
        let epart := takeDigits esgn.2 0 0
        if epart.2.1 = 0 then none
        else if epart.2.2 ≠ [] then none
        else if esgn.1 then some ⟨mantNum, mantDen * 10 ^ epart.1⟩
        else some ⟨mantNum * Int.ofNat (10 ^ epart.1), mantDen⟩
      else none

/-- Models `strconv.ParseFloat(s, 64)` on a string. -/
def parseGoFloat (s : String) : Option GoFloat :=
  parseGoFloatChars s.data

/-- Models `strconv.ParseInt(s, 10, 64)`: optional sign, at least one digit,
nothing else, with the `int64` range check. -/
def parseGoInt64Chars (cs0 : List Char) : Option Int :=
  let sgn : Bool × List Char :=
    match cs0 with
    | '+' :: r => (false, r)
    | '-' :: r => (true, r)
    | r => (false, r)
  if sgn.2 = [] then none
  else if sgn.2.all Char.isDigit then
    let v : Nat := sgn.2.foldl (fun a c => 10 * a + (c.toNat - 48)) 0
    let i : Int := if sgn.1 then -(Int.ofNat v) else Int.ofNat v
    if i < -(2 ^ 63) ∨ 2 ^ 63 - 1 < i then none else some i
  else none

/-- Models `strconv.ParseInt(s, 10, 64)` on a string. -/
def parseGoInt64 (s : String) : Option Int :=
  parseGoInt64Chars s.data

/-- Models Go `strings.Trim(s, "\n")`: removes leading and trailing newline
characters. -/
def trimNewlines (s : String) : String :=
  String.mk (((s.data.dropWhile (· = '\n')).reverse.dropWhile (· = '\n')).reverse)

/-- Environment of the Agent's effectful operations.

`writeOK v f` is the exit status of `bash ./writetofile.sh v f` (main.go
221-226 / 278-283); `readBefore` and `readAfter` give the content of a file
read by `getOSFile` (`cat`, main.go 333-337) during the first and the second
capture round of `getCPUUtilizations`; `elapsedNs` is the measured
`timeElapsed` in nanoseconds (main.go 385-392). -/
structure Env where
  writeOK : String → String → Bool
  readBefore : String → Option String
  readAfter : String → Option String
  elapsedNs : Int

/-- Recursion of `getNewPods` (main.go 175-194): walk the `name:uid` tokens,
inserting each well-formed pair into the map; on the first token that does not
split into exactly two fields on `:`, stop and report failure. -/
def getNewPodsAux : List String → List (String × String) → List (String × String) × Bool
  | [], acc => (acc, true)
  | p :: rest, acc =>
    match splitString ':' p with
    | [a, b] => getNewPodsAux rest (mapInsert acc a b)
    | _ => (acc, false)

/-- Models `getNewPods` (main.go 175-194): parse the tokens after the command
word into a fresh `podName → podUID` map. -/
def getNewPods (msg : String) : List (String × String) × Bool :=
  getNewPodsAux ((splitString ' ' msg).tail) []

/-- Recursion of `parsePodShares` (main.go 291-310): walk the `name:float`
tokens; a token that does not split into exactly two fields on `:`, or whose
second field does not parse as a float, stops the walk with failure.  The
value stored for a pod is `fmt.Sprintf("%d", int64(share))`, i.e. the decimal
string of the float truncated toward zero. -/
def parsePodSharesAux : List String → List (String × String) → List (String × String) × Bool
  | [], acc => (acc, true)
  | p :: rest, acc =>
    match splitString ':' p with
    | [a, b] =>
      match parseGoFloat b with
      | some f => parsePodSharesAux rest (mapInsert acc a (toString (goInt64 f)))
      | none => (acc, false)
    | _ => (acc, false)

/-- Models `parsePodShares` (main.go 291-310). -/
def parsePodShares (msg : String) : List (String × String) × Bool :=
  parsePodSharesAux ((splitString ' ' msg).tail) []

/-- The cgroup file targeted for a pod: note that the pod UID is resolved by a
plain Go map lookup, so an unknown pod name contributes the empty string
(main.go 207-208 and 264-265). -/
def cgroupPath (podUIDs : List (String × String)) (podName suffix : String) : String :=
  "/host/sys/fs/cgroup/cpu/kubepods/" ++ mapLookup podUIDs podName ++ suffix

/-- The write loop shared by `applyCPUShares` (main.go 262-284) and
`applyCPUQuotas` (main.go 205-227): write each entry's value to its pod's
cgroup file through the shell helper; on the first failed write return
`false` immediately.  The second component is the trace of writes that
succeeded, in order. -/
def runWrites (env : Env) (podUIDs : List (String × String)) (suffix : String) :
    List (String × String) → Bool × List (String × String)
  | [] => (true, [])
  | (podName, share) :: rest =>
    let fileName := cgroupPath podUIDs podName suffix
    if env.writeOK share fileName then
      match runWrites env podUIDs suffix rest with
      | (ok, tr) => (ok, (share, fileName) :: tr)
    else (false, [])

/-- Models `applyCPUShares` (main.go 253-289): parse the whole payload first;
on parse failure return failure without any write, otherwise run the write
loop over `cpu.shares` files. -/
def applyCPUShares (env : Env) (podUIDs : List (String × String)) (msg : String) :
    Bool × List (String × String) :=
  match parsePodShares msg with
  | (_, false) => (false, [])
  | (podShares, true) => runWrites env podUIDs "/cpu.shares" podShares

/-- Models `applyCPUQuotas` (main.go 196-232): identical to `applyCPUShares`
except that the target file is `cpu.cfs_quota_us`. -/
def applyCPUQuotas (env : Env) (podUIDs : List (String × String)) (msg : String) :
    Bool × List (String × String) :=
  match parsePodShares msg with
  | (_, false) => (false, [])
  | (podQuotas, true) => runWrites env podUIDs "/cpu.cfs_quota_us" podQuotas

/-- Models `updateLBWeights` (main.go 234-251): the entire received message is
stored as the new LB weights value (the parse step is commented out in the
source) and the handler always reports success. -/
def updateLBWeights (msg : String) : String × Bool := (msg, true)

/-- Models `getPodCPUUtil` (main.go 427-451): read
`/host/sys/fs/cgroup/cpu/kubepods/<uid>/cpuacct.usage`; on a read error or on
a parse error of the trimmed content, return the sentinel `-1`, otherwise the
parsed counter value. -/
def getPodCPUUtil (read : String → Option String) (uid : String) : Int :=
  match read ("/host/sys/fs/cgroup/cpu/kubepods/" ++ uid ++ "/cpuacct.usage") with
  | none => -1
  | some content =>
    match parseGoInt64 (trimNewlines content) with
    | none => -1
    | some v => v

/-- Models `getCPUUtilizations` (main.go 375-402): capture every pod's
`cpuacct.usage` once before and once after the 100 ms sleep, then report, for
each pod, `(final - initial) / timeElapsed * 100`.  The reply is modelled as
the list of `(podName, percentage)` pairs (the `" %s:%f"` formatting of the
response string is abstracted). -/
def getCPUUtilizations (env : Env) (podUIDs : List (String × String)) :
    List (String × ℚ) :=
  let initialCPUUtils := podUIDs.map fun pu => (pu.1, getPodCPUUtil env.readBefore pu.2)
  let finalCPUUtils := podUIDs.map fun pu => (pu.1, getPodCPUUtil env.readAfter pu.2)
  podUIDs.map fun pu =>
    (pu.1,
      ((lookupInt finalCPUUtils pu.1 - lookupInt initialCPUUtils pu.1 : ℚ) /
          (env.elapsedNs : ℚ)) * 100)

/-- Per-connection session state of the Agent: the `podName → podUID` map of
`processClient` (main.go 130) and the shared LB weights string, initially
`DEFAULT_LB_WEIGHTS = ""` (main.go 24, 53-54). -/
structure AgentState where
  podUIDs : List (String × String)
  lbWeights : String
deriving DecidableEq

/-- One reply sent back on the TCP connection.  `text` covers `Success`,
`Failure` and `Unknown message type`; `utils` is the `getCPUUtilizations`
reply with its formatting abstracted to the value list. -/
inductive AgentResponse
  | text (s : String)
  | utils (l : List (String × ℚ))
deriving DecidableEq

/-- Models `sendSuccessOrFailResponse` (main.go 453-459). -/
def successOrFail (ok : Bool) : AgentResponse :=
  if ok then AgentResponse.text "Success" else AgentResponse.text "Failure"

/-- First space-delimited token of a message, `strings.Split(msg, " ")[0]`
(main.go 141). -/
def msgType (msg : String) : String :=
  (splitString ' ' msg).headD ""

/-- Models one iteration of the command dispatcher of `processClient`
(main.go 141-169): returns the new session state, the reply written to the
connection, and the trace of cgroup writes performed by the command. -/
def processCommand (env : Env) (st : AgentState) (msg : String) :
    AgentState × AgentResponse × List (String × String) :=
  let t := msgType msg
  if t = "updatePods" then
    let r := getNewPods msg
    ({ st with podUIDs := if r.2 then r.1 else st.podUIDs }, successOrFail r.2, [])
  else if t = "applyLBWeights" then
    let r := updateLBWeights msg
    ({ st with lbWeights := r.1 }, successOrFail r.2, [])
  else if t = "applyCPUShares" then
    let r := applyCPUShares env st.podUIDs msg
    (st, successOrFail r.1, r.2)
  else if t = "applyCPUQuotas" then
    let r := applyCPUQuotas env st.podUIDs msg
    (st, successOrFail r.1, r.2)
  else if t = "getCPUUtilizations" then
    (st, AgentResponse.utils (getCPUUtilizations env st.podUIDs), [])
  else
    (st, AgentResponse.text "Unknown message type", [])

/-- Models the read loop of `processClient` (main.go 132-170).  The incoming
events are the results of successive `readMsgFromConnection` calls: `some m`
is a received message, `none` a read error.  A read error breaks the loop
(the connection is then closed by the deferred `Close`); remaining events are
not processed.  Returns the final state and the replies sent. -/
def processClientLoop (env : Env) (st : AgentState) :
    List (Option String) → AgentState × List AgentResponse
  | [] => (st, [])
  | none :: _ => (st, [])
  | some m :: rest =>
    let r := processCommand env st m
    let l := processClientLoop env r.1 rest
    (l.1, r.2.1 :: l.2)

/-- State of a `net/http` `ResponseWriter`.  Headers are buffered in
`pending`; `WriteHeader` commits the status code and a snapshot of the
buffered headers (`sentHeaders`) — per `net/http`, changing the header map
after `WriteHeader` has no effect on what is sent. -/
structure ResponseWriter where
  committed : Bool
  status : Nat
  sentHeaders : List (String × String)
  pending : List (String × String)
  body : String
deriving DecidableEq

/-- Header map update `Header().Set(k, v)`. -/
def headerSet (hs : List (String × String)) (k v : String) : List (String × String) :=
  match hs with
  | [] => [(k, v)]
  | (a, b) :: r => if a = k then (k, v) :: r else (a, b) :: headerSet r k v

/-- Header map read: the value sent for key `k`, if any. -/
def headerGet (hs : List (String × String)) (k : String) : Option String :=
  match hs with
  | [] => none
  | (a, b) :: r => if a = k then some b else headerGet r k

/-- Fresh `ResponseWriter`: nothing committed, default status 200, no headers,
empty body. -/
def rwInit : ResponseWriter := ⟨false, 200, [], [], ""⟩

/-- Models `w.WriteHeader(code)`: on first call, commits the status and the
current header snapshot; later calls are ignored. -/
def rwWriteHeader (w : ResponseWriter) (code : Nat) : ResponseWriter :=
  if w.committed then w
  else { w with committed := true, status := code, sentHeaders := w.pending }

/-- Models `w.Header().Set(k, v)`: mutates the buffered header map (which is
only sent if `WriteHeader` has not yet committed). -/
def rwSetHeader (w : ResponseWriter) (k v : String) : ResponseWriter :=
  { w with pending := headerSet w.pending k v }

/-- Models a body write (`fmt.Fprint(w, s)`): commits status 200 first if
nothing was committed, then appends to the body. -/
def rwWrite (w : ResponseWriter) (s : String) : ResponseWriter :=
  let w2 := rwWriteHeader w 200
  { w2 with body := w2.body ++ s }

/-- Models `http.Error(w, msg, code)`: sets the plain-text headers, calls
`WriteHeader(code)` (a no-op if already committed) and writes `msg` plus a
newline to the body. -/
def httpError (w : ResponseWriter) (msg : String) (code : Nat) : ResponseWriter :=
  let w1 := rwSetHeader w "Content-Type" "text/plain; charset=utf-8"
  let w2 := rwSetHeader w1 "X-Content-Type-Options" "nosniff"
  let w3 := rwWriteHeader w2 code
  rwWrite w3 (msg ++ "\n")

/-- Models the HTTP handler registered by `listenForReqsFromLB`
(main.go 96-114) on port 9989, for any method and any path: it calls
`WriteHeader(200)` first, only then sets `Connection: close`, reads the
current weights under the mutex, reads the request body (`reqBody = none`
models a body read error, upon which the handler replies via `http.Error` and
returns), and finally writes the weights string verbatim to the body.  The
handler only reads the shared weights value. -/
def lbHandlerModel (weights : String) (reqBody : Option String) : ResponseWriter :=
  let w1 := rwWriteHeader rwInit 200
  let w2 := rwSetHeader w1 "Connection" "close"
  match reqBody with
  | none => httpError w2 "Error reading request body" 500
  | some _ => rwWrite w2 weights

/-- Specification-side description of a fully well-formed `updatePods`
payload: the map built by inserting, pair by pair, the two `:`-separated
fields of each token, starting from the empty map. -/
def podFoldStep (m : List (String × String)) (p : String) : List (String × String) :=
  match splitString ':' p with
  | [a, b] => mapInsert m a b
  | _ => m

/-- Specification-side map described by an `updatePods` payload. -/
def parsedPodPairs (pairs : List String) : List (String × String) :=
  pairs.foldl podFoldStep []

/-- Well-formedness of one `updatePods` token: it splits into exactly two
fields on `:`. -/
def podPairOK (p : String) : Bool :=
  (splitString ':' p).length == 2

/-- Well-formedness of one `applyCPUShares` / `applyCPUQuotas` token: exactly
two `:`-separated fields and a second field that parses as a float. -/
def shareEntryOK (p : String) : Bool :=
  match splitString ':' p with
  | [_, b] => (parseGoFloat b).isSome
  | _ => false

/-- Initial per-connection state: empty pod map, default (empty) LB
weights. -/
def st0 : AgentState := ⟨[], ""⟩

/-- Environment whose every cgroup write succeeds and whose reads all fail. -/
def envAllOk : Env := ⟨fun _ _ => true, fun _ => none, fun _ => none, 1⟩

/-- Environment in which the before-sleep read of every `cpuacct.usage` file
fails while the after-sleep read returns `200`, with 100 ns measured between
the captures. -/
def envBeforeFails : Env :=
  ⟨fun _ _ => true, fun _ => none, fun _ => some "200", 100⟩

/-- Environment in which the before-sleep read of every `cpuacct.usage` file
returns `1000` while the after-sleep read fails, with 1000000 ns measured
between the captures. -/
def envAfterFails : Env :=
  ⟨fun _ _ => true, fun _ => some "1000", fun _ => none, 1000000⟩

/-- Environment whose cgroup writes succeed except on pod UID `uidB`'s
`cpu.shares` and `cpu.cfs_quota_us` files. -/
def envFailB : Env :=
  ⟨fun _ f =>
    !(f == "/host/sys/fs/cgroup/cpu/kubepods/uidB/cpu.shares" ||
      f == "/host/sys/fs/cgroup/cpu/kubepods/uidB/cpu.cfs_quota_us"),
   fun _ => none, fun _ => none, 1⟩

/-- Two-pod session map used by concrete instances. -/
def podsAB : List (String × String) := [("a", "uidA"), ("b", "uidB")]


/-- Session state holding the two-pod map, used by concrete instances. -/
def stAB : AgentState := ⟨podsAB, ""⟩


/-! ## Helper lemmas -/

theorem getNewPodsAux_ok (pairs : List String) :
    ∀ acc, (∀ p ∈ pairs, podPairOK p = true) →
      getNewPodsAux pairs acc = (pairs.foldl podFoldStep acc, true) := by
  induction pairs with
  | nil => intro acc _; simp [getNewPodsAux]
  | cons p rest ih =>
    intro acc h
    have hp : podPairOK p = true := h p (List.mem_cons_self ..)
    rw [podPairOK] at hp
    obtain ⟨a, b, hab⟩ := List.length_eq_two.mp (by simpa using hp)
    simp only [getNewPodsAux, hab, List.foldl_cons]
    rw [ih _ (fun q hq => h q (List.mem_cons_of_mem _ hq))]
    simp [podFoldStep, hab]

theorem getNewPodsAux_snd (pairs : List String) :
    ∀ acc, (getNewPodsAux pairs acc).2 = pairs.all podPairOK := by
  induction pairs with
  | nil => intro acc; simp [getNewPodsAux]
  | cons p rest ih =>
    intro acc
    rcases hsp : splitString ':' p with _ | ⟨a, _ | ⟨b, t⟩⟩
    · simp [getNewPodsAux, hsp, podPairOK]
    · simp [getNewPodsAux, hsp, podPairOK]
    · cases t with
      | nil => simp [getNewPodsAux, hsp, podPairOK, ih]
      | cons c t2 => simp [getNewPodsAux, hsp, podPairOK]

theorem parsePodSharesAux_snd (pairs : List String) :
    ∀ acc, (parsePodSharesAux pairs acc).2 = pairs.all shareEntryOK := by
  induction pairs with
  | nil => intro acc; simp [parsePodSharesAux]
  | cons p rest ih =>
    intro acc
    rcases hsp : splitString ':' p with _ | ⟨a, _ | ⟨b, t⟩⟩
    · simp [parsePodSharesAux, hsp, shareEntryOK]
    · simp [parsePodSharesAux, hsp, shareEntryOK]
    · cases t with
      | nil =>
        rcases hpf : parseGoFloat b with _ | f
        · simp [parsePodSharesAux, hsp, hpf, shareEntryOK]
        · simp [parsePodSharesAux, hsp, hpf, shareEntryOK, ih]
      | cons c t2 => simp [parsePodSharesAux, hsp, shareEntryOK]

theorem runWrites_all_ok (env : Env) (pods : List (String × String)) (suffix : String)
    (entries : List (String × String))
    (h : ∀ e ∈ entries, env.writeOK e.2 (cgroupPath pods e.1 suffix) = true) :
    runWrites env pods suffix entries =
      (true, entries.map fun e => (e.2, cgroupPath pods e.1 suffix)) := by
  induction entries with
  | nil => simp [runWrites]
  | cons e rest ih =>
    obtain ⟨p, v⟩ := e
    have he := h (p, v) (List.mem_cons_self ..)
    simp only [runWrites, he, if_true]
    rw [ih (fun q hq => h q (List.mem_cons_of_mem _ hq))]
    simp

theorem runWrites_fail_at (env : Env) (pods : List (String × String)) (suffix : String)
    (pre : List (String × String)) (p v : String) (post : List (String × String))
    (hpre : ∀ e ∈ pre, env.writeOK e.2 (cgroupPath pods e.1 suffix) = true)
    (hfail : env.writeOK v (cgroupPath pods p suffix) = false) :
    runWrites env pods suffix (pre ++ (p, v) :: post) =
      (false, pre.map fun e => (e.2, cgroupPath pods e.1 suffix)) := by
  induction pre with
  | nil => simp [runWrites, hfail]
  | cons e rest ih =>
    obtain ⟨a, b⟩ := e
    have he := hpre (a, b) (List.mem_cons_self ..)
    have hrest := ih (fun q hq => hpre q (List.mem_cons_of_mem _ hq))
    simp only [List.cons_append, runWrites, he, if_true, List.append_eq]
    rw [hrest]
    simp

theorem processCommand_lbWeights (env : Env) (st : AgentState) (msg : String)
    (h : msgType msg ≠ "applyLBWeights") :
    (processCommand env st msg).1.lbWeights = st.lbWeights := by
  simp only [processCommand]
  split_ifs with h1 h2 h3 h4 h5 <;> simp_all

theorem processClientLoop_lbWeights (env : Env) (evs : List (Option String)) :
    ∀ st : AgentState, (∀ o ∈ evs, Option.map msgType o ≠ some "applyLBWeights") →
      (processClientLoop env st evs).1.lbWeights = st.lbWeights := by
  induction evs with
  | nil => intro st _; simp [processClientLoop]
  | cons o rest ih =>
    intro st h
    cases o with
    | none => simp [processClientLoop]
    | some m =>
      have hm : msgType m ≠ "applyLBWeights" := by
        have := h (some m) (List.mem_cons_self ..)
        simpa using this
      simp only [processClientLoop]
      rw [ih _ (fun q hq => h q (List.mem_cons_of_mem _ hq)),
        processCommand_lbWeights env st m hm]

theorem goInt64_eq_floor (f : GoFloat) (hn : 0 ≤ f.num) :
    goInt64 f = Int.floor (goFloatVal f) := by
  have hb : (0 : ℤ) ≤ Int.ofNat f.den := Int.natCast_nonneg f.den
  have h2 : Int.tdiv f.num (Int.ofNat f.den) = f.num / Int.ofNat f.den :=
    Int.tdiv_eq_ediv hn hb
  rw [goFloatVal, Rat.floor_intCast_div_natCast, goInt64, h2]
  rfl

/-! ## Claim theorems -/

/-- C1, counterexample.  The Agent acknowledges `applyLBWeights w` with
`Success`, but a subsequent HTTP request to the weights endpoint returns the
entire command message `applyLBWeights w` as the body — not the payload `w`
that the claim promises: `updateLBWeights` stores the whole message. -/
theorem C1_counterexample :
    (processCommand envAllOk st0 "applyLBWeights w").2.1 = AgentResponse.text "Success" ∧
    (lbHandlerModel (processCommand envAllOk st0 "applyLBWeights w").1.lbWeights
        (some "")).body = "applyLBWeights w" ∧
    "applyLBWeights w" ≠ "w" := by
  refine ⟨by decide, by decide, by decide⟩

/-- C1, amended.  After the Agent acknowledges an `applyLBWeights` command
with `Success`, every HTTP request to the weights endpoint whose body read
succeeds returns the full command message (prefix included) as the response
body, and it keeps doing so until the next `applyLBWeights` command: any
sequence of further commands that contains no `applyLBWeights` leaves the
stored weights equal to that message. -/
theorem C1_weightsVisible (env : Env) (st : AgentState) (msg b : String)
    (evs : List (Option String))
    (h : msgType msg = "applyLBWeights")
    (hevs : ∀ o ∈ evs, Option.map msgType o ≠ some "applyLBWeights") :
    (processCommand env st msg).2.1 = AgentResponse.text "Success" ∧
    (processCommand env st msg).1.lbWeights = msg ∧
    (lbHandlerModel (processCommand env st msg).1.lbWeights (some b)).body = msg ∧
    (processClientLoop env (processCommand env st msg).1 evs).1.lbWeights = msg := by
  have hst : (processCommand env st msg).1.lbWeights = msg := by
    simp [processCommand, h, updateLBWeights]
  have hresp : (processCommand env st msg).2.1 = AgentResponse.text "Success" := by
    simp [processCommand, h, updateLBWeights, successOrFail]
  refine ⟨hresp, hst, ?_, ?_⟩
  · rw [hst]
    simp [lbHandlerModel, rwWrite, rwWriteHeader, rwSetHeader, rwInit]
  · rw [processClientLoop_lbWeights env evs _ hevs, hst]

/-- C1, witness for `C1_weightsVisible` at a concrete command and a concrete
follow-up command sequence without `applyLBWeights`. -/
theorem C1_weightsVisible_witness :
    (processCommand envAllOk st0 "applyLBWeights x").2.1 = AgentResponse.text "Success" ∧
    (processCommand envAllOk st0 "applyLBWeights x").1.lbWeights = "applyLBWeights x" ∧
    (lbHandlerModel (processCommand envAllOk st0 "applyLBWeights x").1.lbWeights
        (some "")).body = "applyLBWeights x" ∧
    (processClientLoop envAllOk (processCommand envAllOk st0 "applyLBWeights x").1
        [some "bogus", some "updatePods a:1"]).1.lbWeights = "applyLBWeights x" :=
  C1_weightsVisible envAllOk st0 "applyLBWeights x" ""
    [some "bogus", some "updatePods a:1"] (by decide) (by decide)

/-- C2, code bug.  With the session map `{p ↦ u}`, a failed before-sleep read
and an after-sleep read of `200` over 100 measured nanoseconds, the response
reports `((200 - (-1)) / 100) * 100 = 201` for pod `p` — the `-1` sentinel
returned by `getPodCPUUtil` for the failed read is fed into the delta formula
instead of being reported, so the claimed `-1` never reaches the reply. -/
theorem C2_sentinelLost :
    getPodCPUUtil envBeforeFails.readBefore "u" = -1 ∧
    getPodCPUUtil envBeforeFails.readAfter "u" = 200 ∧
    getCPUUtilizations envBeforeFails [("p", "u")] = [("p", 201)] ∧
    (201 : ℚ) ≠ -1 := by
  have h1 : getPodCPUUtil envBeforeFails.readBefore "u" = -1 := by decide
  have h2 : getPodCPUUtil envBeforeFails.readAfter "u" = 200 := by decide
  refine ⟨h1, h2, ?_, by norm_num⟩
  simp only [getCPUUtilizations, List.map, h1, h2, lookupInt]
  norm_num [envBeforeFails]

/-- C3, counterexample.  A two-entry `applyCPUShares` batch whose second
write fails: the Agent answers `Failure`, yet the first entry's cgroup write
has already taken effect — the batch is not all-or-nothing. -/
theorem C3_counterexample :
    (applyCPUShares envFailB podsAB "applyCPUShares a:1 b:2").1 = false ∧
    (applyCPUShares envFailB podsAB "applyCPUShares a:1 b:2").2 =
      [("1", "/host/sys/fs/cgroup/cpu/kubepods/uidA/cpu.shares")] ∧
    (applyCPUShares envFailB podsAB "applyCPUShares a:1 b:2").2 ≠ [] := by
  refine ⟨by decide, by decide, by decide⟩

/-- C3, amended.  When a batch entry's cgroup write fails, the Agent responds
with a single `Failure` and stops at the failing entry, but the writes issued
before it remain applied: the command can leave a partially applied batch
(exactly the successful prefix before the first failing entry). -/
theorem C3_partialApply (env : Env) (pods : List (String × String)) (msg : String)
    (pre : List (String × String)) (p v : String) (post : List (String × String))
    (hparse : parsePodShares msg = (pre ++ (p, v) :: post, true))
    (hpreS : ∀ e ∈ pre, env.writeOK e.2 (cgroupPath pods e.1 "/cpu.shares") = true)
    (hfailS : env.writeOK v (cgroupPath pods p "/cpu.shares") = false)
    (hpreQ : ∀ e ∈ pre, env.writeOK e.2 (cgroupPath pods e.1 "/cpu.cfs_quota_us") = true)
    (hfailQ : env.writeOK v (cgroupPath pods p "/cpu.cfs_quota_us") = false) :
    applyCPUShares env pods msg =
      (false, pre.map fun e => (e.2, cgroupPath pods e.1 "/cpu.shares")) ∧
    applyCPUQuotas env pods msg =
      (false, pre.map fun e => (e.2, cgroupPath pods e.1 "/cpu.cfs_quota_us")) := by
  constructor
  · simp only [applyCPUShares, hparse]
    exact runWrites_fail_at env pods "/cpu.shares" pre p v post hpreS hfailS
  · simp only [applyCPUQuotas, hparse]
    exact runWrites_fail_at env pods "/cpu.cfs_quota_us" pre p v post hpreQ hfailQ

/-- C3, witness for `C3_partialApply` on the concrete two-entry batch whose
second entry's write fails. -/
theorem C3_partialApply_witness :
    applyCPUShares envFailB podsAB "applyCPUShares a:1 b:2" =
      (false, [("a", "1")].map fun e => (e.2, cgroupPath podsAB e.1 "/cpu.shares")) ∧
    applyCPUQuotas envFailB podsAB "applyCPUShares a:1 b:2" =
      (false, [("a", "1")].map fun e => (e.2, cgroupPath podsAB e.1 "/cpu.cfs_quota_us")) :=
  C3_partialApply envFailB podsAB "applyCPUShares a:1 b:2"
    [("a", "1")] "b" "2" [] (by decide) (by decide) (by decide) (by decide) (by decide)

/-- C4, counterexample.  With session map `{a ↦ uidA, b ↦ uidB}`, the command
`applyCPUShares zzz:5` references the unknown pod `zzz`, yet the Agent
responds `Success` (when the shell write succeeds): the unknown name resolves
to the empty UID and the write is attempted at the degenerate path, so the
command does not fail as the claim requires. -/
theorem C4_counterexample :
    mapLookup podsAB "zzz" = "" ∧
    processCommand envAllOk stAB "applyCPUShares zzz:5" =
      (stAB, AgentResponse.text "Success",
        [("5", "/host/sys/fs/cgroup/cpu/kubepods//cpu.shares")]) := by
  refine ⟨by decide, by decide⟩

/-- C4, amended.  The Agent performs no membership check against the session
map: every parsed entry — known pod or not — is written to
`/host/sys/fs/cgroup/cpu/kubepods/<mapLookup uid>/…`, where an unknown pod
name contributes the empty UID, and the command succeeds whenever parsing and
all writes succeed; it fails only on a parse or write failure, never because
a pod name is unknown. -/
theorem C4_noMembershipCheck (env : Env) (pods : List (String × String)) (msg : String)
    (entries : List (String × String))
    (hparse : parsePodShares msg = (entries, true))
    (hw : ∀ v f, env.writeOK v f = true) :
    applyCPUShares env pods msg =
      (true, entries.map fun e => (e.2, cgroupPath pods e.1 "/cpu.shares")) ∧
    applyCPUQuotas env pods msg =
      (true, entries.map fun e => (e.2, cgroupPath pods e.1 "/cpu.cfs_quota_us")) := by
  constructor
  · simp only [applyCPUShares, hparse]
    exact runWrites_all_ok env pods "/cpu.shares" entries (fun e _ => hw _ _)
  · simp only [applyCPUQuotas, hparse]
    exact runWrites_all_ok env pods "/cpu.cfs_quota_us" entries (fun e _ => hw _ _)

/-- C4, witness for `C4_noMembershipCheck` on a command naming only the
unknown pod `zzz` while the session map holds `a` and `b`. -/
theorem C4_noMembershipCheck_witness :
    applyCPUShares envAllOk podsAB "applyCPUShares zzz:5" =
      (true, [("zzz", "5")].map fun e => (e.2, cgroupPath podsAB e.1 "/cpu.shares")) ∧
    applyCPUQuotas envAllOk podsAB "applyCPUShares zzz:5" =
      (true, [("zzz", "5")].map fun e => (e.2, cgroupPath podsAB e.1 "/cpu.cfs_quota_us")) :=
  C4_noMembershipCheck envAllOk podsAB "applyCPUShares zzz:5" [("zzz", "5")]
    (by decide) (fun _ _ => rfl)

/-- C5.  An `updatePods` message whose every token splits into exactly two
fields on `:` is acknowledged `Success` and replaces the session map with
exactly the parsed pairs (independently of the previous map); a message with
any malformed token is answered `Failure` and leaves the whole state
unchanged. -/
theorem C5_updatePods (env : Env) (st : AgentState) (msg : String)
    (h : msgType msg = "updatePods") :
    ((∀ p ∈ (splitString ' ' msg).tail, podPairOK p = true) →
      processCommand env st msg =
        ({ st with podUIDs := parsedPodPairs ((splitString ' ' msg).tail) },
          AgentResponse.text "Success", [])) ∧
    ((∃ p ∈ (splitString ' ' msg).tail, podPairOK p = false) →
      processCommand env st msg = (st, AgentResponse.text "Failure", [])) := by
  constructor
  · intro hall
    have hok := getNewPodsAux_ok ((splitString ' ' msg).tail) [] hall
    simp [processCommand, h, getNewPods, hok, parsedPodPairs, successOrFail]
  · rintro ⟨p, hp, hbad⟩
    have hallf : ((splitString ' ' msg).tail).all podPairOK = false :=
      List.all_eq_false.mpr ⟨p, hp, by simp [hbad]⟩
    have hsnd : (getNewPods msg).2 = false := by
      rw [getNewPods, getNewPodsAux_snd, hallf]
    simp [processCommand, h, hsnd, successOrFail]

/-- C5, witness for `C5_updatePods`: a well-formed and a malformed concrete
`updatePods` message. -/
theorem C5_updatePods_witness :
    processCommand envAllOk st0 "updatePods x:1 y:2" =
      ({ st0 with podUIDs := parsedPodPairs ["x:1", "y:2"] },
        AgentResponse.text "Success", []) ∧
    processCommand envAllOk st0 "updatePods bad" =
      (st0, AgentResponse.text "Failure", []) := by
  constructor
  · have h := (C5_updatePods envAllOk st0 "updatePods x:1 y:2" (by decide)).1 (by decide)
    rw [show (splitString ' ' "updatePods x:1 y:2").tail = ["x:1", "y:2"] from by decide] at h
    exact h
  · exact (C5_updatePods envAllOk st0 "updatePods bad" (by decide)).2
      ⟨"bad", by decide, by decide⟩

/-- C6.  A message whose first token is none of the five known commands is
answered `Unknown message type` while the whole session state (pod map and LB
weights) is unchanged and no write happens; the handler loop then goes on
processing the remaining events (the connection stays open).  A read error
instead terminates the loop at once, leaving the remaining events
unprocessed. -/
theorem C6_unknownMessage (env : Env) (st : AgentState) (msg : String)
    (rest : List (Option String))
    (h : msgType msg ∉ ["updatePods", "applyLBWeights", "applyCPUShares",
        "applyCPUQuotas", "getCPUUtilizations"]) :
    processCommand env st msg = (st, AgentResponse.text "Unknown message type", []) ∧
    processClientLoop env st (some msg :: rest) =
      ((processClientLoop env st rest).1,
        AgentResponse.text "Unknown message type" :: (processClientLoop env st rest).2) ∧
    processClientLoop env st (none :: rest) = (st, []) := by
  simp only [List.mem_cons, List.not_mem_nil, or_false, not_or] at h
  obtain ⟨h1, h2, h3, h4, h5⟩ := h
  have hcmd : processCommand env st msg =
      (st, AgentResponse.text "Unknown message type", []) := by
    simp [processCommand, h1, h2, h3, h4, h5]
  refine ⟨hcmd, ?_, by simp [processClientLoop]⟩
  simp [processClientLoop, hcmd]

/-- C6, witness for `C6_unknownMessage` on a concrete unknown command followed
by one more event. -/
theorem C6_unknownMessage_witness :
    processCommand envAllOk st0 "bogus stuff" =
      (st0, AgentResponse.text "Unknown message type", []) ∧
    processClientLoop envAllOk st0 [some "bogus stuff", some "updatePods a:1"] =
      ((processClientLoop envAllOk st0 [some "updatePods a:1"]).1,
        AgentResponse.text "Unknown message type" ::
          (processClientLoop envAllOk st0 [some "updatePods a:1"]).2) ∧
    processClientLoop envAllOk st0 [none, some "updatePods a:1"] = (st0, []) :=
  C6_unknownMessage envAllOk st0 "bogus stuff" [some "updatePods a:1"] (by decide)

/-- C7, counterexample.  For the entry `p:-1.5` the value handed to the write
helper is `"-1"` — `int64(-1.5)` truncates toward zero — whereas the claimed
mathematical floor of `-1.5` is `-2`. -/
theorem C7_counterexample :
    parseGoFloat "-1.5" = some ⟨-15, 10⟩ ∧
    goFloatVal ⟨-15, 10⟩ = -3 / 2 ∧
    Int.floor (goFloatVal ⟨-15, 10⟩) = -2 ∧
    parsePodShares "applyCPUShares p:-1.5" = ([("p", "-1")], true) ∧
    applyCPUShares envAllOk podsAB "applyCPUShares p:-1.5" =
      (true, [("-1", "/host/sys/fs/cgroup/cpu/kubepods//cpu.shares")]) ∧
    toString (Int.floor (goFloatVal ⟨-15, 10⟩)) = "-2" ∧
    ("-1" : String) ≠ "-2" := by
  refine ⟨by decide, by norm_num [goFloatVal], ?_, by decide, by decide, ?_, by decide⟩
  · norm_num [goFloatVal]
  · rw [show Int.floor (goFloatVal ⟨-15, 10⟩) = -2 from by norm_num [goFloatVal]]
    decide

/-- C7, amended.  For every `applyCPUShares` entry `podName:x` whose value
parses as a float, the value passed to the cgroup write helper is the decimal
string of x truncated toward zero (Go's `int64` conversion); this equals the
mathematical floor `⌊x⌋` whenever `x ≥ 0`, but not for negative non-integer
values. -/
theorem C7_truncation (msg tok name s : String) (f : GoFloat) (rest : List String)
    (h0 : (splitString ' ' msg).tail = tok :: rest)
    (h1 : splitString ':' tok = [name, s])
    (h2 : parseGoFloat s = some f) :
    parsePodShares msg = parsePodSharesAux rest [(name, toString (goInt64 f))] ∧
    (0 ≤ f.num → goInt64 f = Int.floor (goFloatVal f)) := by
  constructor
  · rw [parsePodShares, h0]
    simp [parsePodSharesAux, h1, h2, mapInsert]
  · intro hn
    exact goInt64_eq_floor f hn

/-- C7, witness for `C7_truncation` on the nonnegative entry `p:2.7`, where
the stored value is the floor `2`. -/
theorem C7_truncation_witness :
    parsePodShares "applyCPUShares p:2.7" =
      parsePodSharesAux [] [("p", toString (goInt64 ⟨27, 10⟩))] ∧
    goInt64 ⟨27, 10⟩ = Int.floor (goFloatVal ⟨27, 10⟩) := by
  have h := C7_truncation "applyCPUShares p:2.7" "p:2.7" "p" "2.7" ⟨27, 10⟩ []
    (by decide) (by decide) (by decide)
  exact ⟨h.1, h.2 (by decide)⟩

/-- C8, code bug.  With a successful before-sleep read of `1000`, a failed
after-sleep read and 1000000 measured nanoseconds, the response reports
`((-1 - 1000) / 1000000) * 100 = -1001/10000` for the pod: a negative value
different from the sentinel `-1`, which the claimed invariant rules out. -/
theorem C8_negativeEmitted :
    getCPUUtilizations envAfterFails [("p", "u")] = [("p", -1001 / 10000)] ∧
    (-1001 / 10000 : ℚ) < 0 ∧
    (-1001 / 10000 : ℚ) ≠ -1 := by
  have h1 : getPodCPUUtil envAfterFails.readBefore "u" = 1000 := by decide
  have h2 : getPodCPUUtil envAfterFails.readAfter "u" = -1 := by decide
  refine ⟨?_, by norm_num, by norm_num⟩
  simp only [getCPUUtilizations, List.map, h1, h2, lookupInt]
  norm_num [envAfterFails]

/-- C9, code bug.  For any request (here body `"ping"`, weights `"W"`), the
handler does answer status 200 with the weights string verbatim as the body
and without touching the stored weights, but the `Connection: close` header is
set only after `WriteHeader(200)` has committed the headers, so it is never
part of the sent headers — it is stranded in the post-commit buffer. -/
theorem C9_headerNotSent :
    lbHandlerModel "W" (some "ping") =
      { committed := true, status := 200, sentHeaders := [],
        pending := [("Connection", "close")], body := "W" } ∧
    headerGet (lbHandlerModel "W" (some "ping")).sentHeaders "Connection" = none ∧
    headerGet (lbHandlerModel "W" (some "ping")).pending "Connection" = some "close" := by
  refine ⟨by decide, by decide, by decide⟩

/-- C10.  An `applyCPUShares` or `applyCPUQuotas` payload containing any
entry that does not split into two fields on `:` or whose value does not
parse as a float makes the whole command fail with no cgroup write at all:
the payload is parsed and validated in full before the first write. -/
theorem C10_validateBeforeWrite (env : Env) (pods : List (String × String)) (msg : String)
    (h : ∃ p ∈ (splitString ' ' msg).tail, shareEntryOK p = false) :
    applyCPUShares env pods msg = (false, []) ∧
    applyCPUQuotas env pods msg = (false, []) := by
  obtain ⟨p, hp, hbad⟩ := h
  have hallf : ((splitString ' ' msg).tail).all shareEntryOK = false :=
    List.all_eq_false.mpr ⟨p, hp, by simp [hbad]⟩
  have hsnd : (parsePodShares msg).2 = false := by
    rw [parsePodShares, parsePodSharesAux_snd, hallf]
  rcases hps : parsePodShares msg with ⟨m, b⟩
  rw [hps] at hsnd
  subst hsnd
  exact ⟨by simp [applyCPUShares, hps], by simp [applyCPUQuotas, hps]⟩

/-- C10, witness for `C10_validateBeforeWrite` on a payload whose single
entry's value does not parse as a float. -/
theorem C10_validateBeforeWrite_witness :
    applyCPUShares envAllOk podsAB "applyCPUShares a:xx" = (false, []) ∧
    applyCPUQuotas envAllOk podsAB "applyCPUShares a:xx" = (false, []) :=
  C10_validateBeforeWrite envAllOk podsAB "applyCPUShares a:xx"
    ⟨"a:xx", by decide, by decide⟩

end HostAgent
